import Mathlib

/-!
Shallow embedding of `src/modules/Router.js` (route matching, match diffing,
transition-hook orchestration, pending/committed state) of the react-router
snapshot, together with theorems settling the frozen claims C1–C10.

Modelling conventions:
* A JS params object is a `Params` association list; a key stored with the
  value `undefined` is `(k, none)`.  Indexing `params[k]` is `Params.idx`,
  which also yields `none` for an absent key, exactly as JS indexing does.
* Route identity (`!==` in JS) is modelled by a numeric id `rid` given to
  every `Route` node.
* Handler hook bodies are arbitrary user code; their capability surface
  (do nothing / abort with a reason / attach a wait promise / throw, plus an
  optional returned promise) is modelled by the data type `HookBeh`.
  Promises are abstract tokens (`Nat`); the embedding executes a promise
  chain sequentially in settlement order and records, per phase, whether the
  chain went asynchronous (callback deferred via setTimeout) and the ordered
  trace of handler hooks actually invoked.
-/

namespace ReactRouter

/-- JS params object: association list; a value `none` models a key that is
present but bound to `undefined`. -/
abbrev Params := List (String × Option String)

/-- JS indexing `params[k]`: `none` both for an absent key and for a key
bound to `undefined`. -/
def Params.idx (ps : Params) (k : String) : Option String :=
  match ps.lookup k with
  | some v => v
  | none => none

/-- JS `params[k] = v`: overwrite in place if the key exists, else append
(JS objects keep insertion order). -/
def Params.set (ps : Params) (k : String) (v : Option String) : Params :=
  if (ps.lookup k).isSome then
    ps.map (fun kv => if kv.1 = k then (k, v) else kv)
  else
    ps ++ [(k, v)]

/-- A route node: path pattern, declared param names, ordered children and
the per-subtree fallback routes, as built by the (external) tree builder.
`rid` models JS object identity. -/
inductive Route where
  | mk (rid : Nat) (path : String) (paramNames : List String)
       (childRoutes : List Route) (defaultRoute : Option Route)
       (notFoundRoute : Option Route)
deriving Repr

def Route.rid : Route → Nat
  | .mk r _ _ _ _ _ => r

def Route.path : Route → String
  | .mk _ p _ _ _ _ => p

def Route.paramNames : Route → List String
  | .mk _ _ ns _ _ _ => ns

def Route.childRoutes : Route → List Route
  | .mk _ _ _ cs _ _ => cs

def Route.defaultRoute : Route → Option Route
  | .mk _ _ _ _ d _ => d

def Route.notFoundRoute : Route → Option Route
  | .mk _ _ _ _ _ n => n

/-- `Match` from `src/modules/Match.js`: a route paired with the params
extracted for it in one resolution. -/
structure Match where
  route : Route
  params : Params
deriving Repr

/-- The external path-matching primitive `Path.extractParams`
(pattern, path) ↦ params or null; opaque to the router core, so the
embedding takes it as a function parameter. -/
abbrev Extract := String → String → Option Params

/-- `getRootMatch` (Router.js line 17): `matches[matches.length - 1]`,
i.e. the LAST match of the chain (`none` on an empty array, where JS would
yield `undefined`). -/
def getRootMatch (ms : List Match) : Option Match :=
  ms.getLast?

/-- Params of `getRootMatch`; `[]` on the (unreachable in `findMatches`)
empty chain. -/
def rootParamsOf (ms : List Match) : Params :=
  match getRootMatch ms with
  | some m => m.params
  | none => []

/-- The `route.paramNames.reduce` step of `findMatches` (lines 33–36):
build this route's own params by pulling each declared name out of the
deepest match's params (possibly `undefined`). -/
def reduceParams (paramNames : List String) (rootParams : Params) : Params :=
  paramNames.foldl (fun ps name => ps.set name (rootParams.idx name)) []

/-- `findMatches` (Router.js lines 21–59): depth-first search.  For each
route in order, first recurse into its subtree (with the route's own
fallbacks); a subtree match is prepended with a `Match` for this route and
returned at once.  Otherwise try the route's own pattern.  After all
siblings fail, try `defaultRoute`, then `notFoundRoute`, else null. -/
def findMatches (ext : Extract) (path : String) :
    List Route → Option Route → Option Route → Option (List Match)
  | [], dflt, nf =>
    match dflt with
    | some d =>
      match ext d.path path with
      | some params => some [⟨d, params⟩]
      | none =>
        match nf with
        | some n =>
          match ext n.path path with
          | some params => some [⟨n, params⟩]
          | none => none
        | none => none
    | none =>
      match nf with
      | some n =>
        match ext n.path path with
        | some params => some [⟨n, params⟩]
        | none => none
      | none => none
  | Route.mk rid rpath paramNames children cdflt cnf :: rest, dflt, nf =>
    match findMatches ext path children cdflt cnf with
    | some ms =>
      let rootParams := rootParamsOf ms
      let params := reduceParams paramNames rootParams
      some (⟨Route.mk rid rpath paramNames children cdflt cnf, params⟩ :: ms)
    | none =>
      match ext rpath path with
      | some params => some [⟨Route.mk rid rpath paramNames children cdflt cnf, params⟩]
      | none => findMatches ext path rest dflt nf

/-- `hasMatch` (Router.js lines 61–72): `match` has a counterpart in
`matches` when some member `m` has the same route object and, for every
key of `m.params`, the same value under JS indexing.  Keys present only in
`match.params` are NOT checked. -/
def hasMatch (ms : List Match) (mtch : Match) : Bool :=
  ms.any (fun m =>
    m.route.rid == mtch.route.rid &&
      m.params.all (fun kv => m.params.idx kv.1 == mtch.params.idx kv.1))

/-- `reversedArray` util: a reversed copy of the array. -/
def reversedArray (xs : List α) : List α := xs.reverse

/-- The mutable per-dispatch token from `src/modules/Transition.js`:
`isAborted`, `abortReason` and the optional pending `promise` attached by
`transition.wait`.  Reasons are abstract (`String`). -/
structure Transition where
  isAborted : Bool := false
  abortReason : Option String := none
  promise : Option Nat := none
deriving Repr, DecidableEq

/-- What one handler hook body does to the transition: nothing, abort with a
reason (`transition.abort`), attach an asynchronous wait
(`transition.wait`), or throw synchronously. -/
inductive HookEff where
  | nop
  | abort (reason : String)
  | wait (tok : Nat)
  | throwErr (e : String)
deriving Repr, DecidableEq

/-- One handler hook: its effect on the transition plus its return value
(`some tok` models returning a promise, `none` returning undefined). -/
structure HookBeh where
  eff : HookEff
  ret : Option Nat := none
deriving Repr, DecidableEq

/-- A route handler's optional transition hooks (`none` = the handler does
not define that static). -/
structure Handler where
  willTransitionFrom : Option HookBeh := none
  willTransitionTo : Option HookBeh := none
deriving Repr

/-- Handler lookup by route identity (JS reads `match.route.handler`). -/
abbrev Handlers := Nat → Handler

/-- Result of one hook body: the mutated transition and the returned value,
or the mutated transition and a thrown error. -/
inductive HookOut where
  | ok (t : Transition) (ret : Option Nat)
  | err (t : Transition) (e : String)
deriving Repr, DecidableEq

/-- Execute one hook body on the transition. -/
def runHookBeh (b : HookBeh) (t : Transition) : HookOut :=
  match b.eff with
  | .nop => .ok t b.ret
  | .abort reason => .ok { t with isAborted := true, abortReason := some reason } b.ret
  | .wait tok => .ok { t with promise := some tok } b.ret
  | .throwErr e => .err t e

/-- Result of one wrapper function built in `runTransitionFromHooks` /
`runTransitionToHooks`: transition afterwards, the wrapper's return value
(a promise or undefined) and, when the handler's hook body was actually
invoked, that route's id as a trace event. -/
inductive WrapOut where
  | ok (t : Transition) (ret : Option Nat) (ev : Option Nat)
  | err (t : Transition) (e : String) (ev : Option Nat)
deriving Repr, DecidableEq

/-- One wrapper of `runTransitionFromHooks` (Router.js lines 81–93): if the
transition is not aborted and the handler has `willTransitionFrom`, return
the hook's own return value — `transition.promise` is NOT consumed on this
branch.  Otherwise consume and clear `transition.promise` and return it. -/
def fromWrapper (handlers : Handlers) (m : Match) (t : Transition) : WrapOut :=
  match t.isAborted, (handlers m.route.rid).willTransitionFrom with
  | false, some b =>
    match runHookBeh b t with
    | .ok t' ret => .ok t' ret (some m.route.rid)
    | .err t' e => .err t' e (some m.route.rid)
  | _, _ => .ok { t with promise := none } t.promise none

/-- One wrapper of `runTransitionToHooks` (Router.js lines 104–116): invoke
the hook (return value discarded) when not aborted and present, then in
every non-throwing case consume and clear `transition.promise` and return
it. -/
def toWrapper (handlers : Handlers) (_query : Params) (m : Match) (t : Transition) : WrapOut :=
  match t.isAborted, (handlers m.route.rid).willTransitionTo with
  | false, some b =>
    match runHookBeh b t with
    | .ok t' _ => .ok { t' with promise := none } t'.promise (some m.route.rid)
    | .err t' e => .err t' e (some m.route.rid)
  | _, _ => .ok { t with promise := none } t.promise none

/-- Outcome of `runHooks` (Router.js lines 125–148) on a wrapper list:
final transition, whether the callback is deferred to a later scheduling
turn (true exactly when the reduce produced a promise, in which case the
callback goes through `setTimeout`; a synchronous error caught before any
promise appeared is reported inline), the error delivered to the callback,
and the ordered trace of handler hook invocations. -/
structure RunResult where
  t : Transition
  deferredQ : Bool
  error : Option String
  events : List Nat
deriving Repr, DecidableEq

/-- `runHooks`: run the wrappers serially, threading the transition; the
accumulator `asyncQ` models the reduce value turning into a promise the
first time a wrapper returns one (every later step then chains on it).  A
wrapper that throws stops the chain: before the async point this is the
`try/catch` inline `callback(error)`, after it a rejection delivered via
`setTimeout`. -/
def runHooks : List (Transition → WrapOut) → Transition → Bool → List Nat → RunResult
  | [], t, asyncQ, evs => ⟨t, asyncQ, none, evs⟩
  | w :: ws, t, asyncQ, evs =>
    match w t with
    | .ok t' ret ev => runHooks ws t' (asyncQ || ret.isSome) (evs ++ ev.toList)
    | .err t' e ev => ⟨t', asyncQ, some e, evs ++ ev.toList⟩

/-- `runTransitionFromHooks` (lines 80–96): wrappers over the reversed
match list, so the deepest-nested handlers are called first. -/
def runTransitionFromHooks (handlers : Handlers) (ms : List Match) (t : Transition) : RunResult :=
  runHooks ((reversedArray ms).map (fun m => fromWrapper handlers m)) t false []

/-- `runTransitionToHooks` (lines 103–119): wrappers in natural chain
order. -/
def runTransitionToHooks (handlers : Handlers) (ms : List Match) (query : Params) (t : Transition) : RunResult :=
  runHooks (ms.map (fun m => toWrapper handlers query m)) t false []

/-- A Resolved State as stored in `router._nextState` / `router.state`
(field `matches` is spelled `matches'` because `matches` is a Lean
keyword). -/
structure ResolvedState where
  matches' : List Match
  path : String
  routes : List Route
  params : Params
  query : Params
deriving Repr

/-- The value of `this.state`: `undefined` (after a `flipSwitch` with no
pending state), the initial empty object `{}`, or a stored Resolved
State. -/
inductive StateObj where
  | undef
  | empty
  | resolved (s : ResolvedState)
deriving Repr

/-- `this.state.matches || []` — reading `.matches` of `undefined` throws
in JS, modelled as `none`. -/
def stateMatches : StateObj → Option (List Match)
  | .undef => none
  | .empty => some []
  | .resolved s => some s.matches'

/-- The mutable Router fields the dispatch/commit protocol touches:
committed state and the pending `_nextState` (absent = `none`). -/
structure Router where
  state : StateObj
  nextState : Option ResolvedState

/-- The external `Path` helpers dispatch consumes besides
`extractParams`. -/
structure PathOps where
  extractParams : Extract
  withoutQuery : String → String
  extractQuery : String → Option Params

/-- `Router.prototype.match` (line 228): strip the query, run the
matcher. -/
def routerMatch (pops : PathOps) (routes : List Route) (dflt nf : Option Route) (path : String) :
    Option (List Match) :=
  findMatches pops.extractParams (pops.withoutQuery path) routes dflt nf

/-- The diff step of `dispatch` (lines 259–271): when the current chain is
non-empty, `fromMatches`/`toMatches` are the members of one chain with no
`hasMatch` counterpart in the other; on an empty current chain, nothing
leaves and everything enters. -/
def computeDiff (currentMatches nextMatches : List Match) : List Match × List Match :=
  if currentMatches.length != 0 then
    (currentMatches.filter (fun m => !hasMatch nextMatches m),
     nextMatches.filter (fun m => !hasMatch currentMatches m))
  else
    ([], nextMatches)

/-- Everything observable about one `dispatch(path, callback)` call: the
router afterwards, the two arguments the callback receives, the final
transition, whether the callback was deferred to a later scheduling turn
(as opposed to running inline within `dispatch`), and the per-phase traces
of handler hooks invoked. -/
structure DispatchOutcome where
  router : Router
  cbError : Option String
  cbAbortReason : Option String
  t : Transition
  deferredQ : Bool
  fromEvents : List Nat
  toEvents : List Nat

/-- `Router.prototype.dispatch` (lines 248–302).  Returns `none` when
`this.state` is `undefined` (JS would throw reading `.matches`).  The
leaving phase runs first; on error/abort the callback fires with
`(error, transition.abortReason)` and the router is untouched.  Otherwise
the entering phase runs; on error/abort likewise.  Otherwise the pending
state is stored from the first `length - fromMatches.length` current
matches concatenated with `toMatches`, with `params` taken from
`getRootMatch` (the LAST match) and the callback fires with no
arguments.  `deferredQ` is true iff some phase's promise chain went
asynchronous (callback through `setTimeout`). -/
def dispatch (pops : PathOps) (handlers : Handlers) (routes : List Route)
    (dflt nf : Option Route) (r : Router) (path : String) : Option DispatchOutcome :=
  match stateMatches r.state with
  | none => none
  | some currentMatches =>
    let nextMatches := (routerMatch pops routes dflt nf path).getD []
    let diffed := computeDiff currentMatches nextMatches
    let fromMatches := diffed.1
    let toMatches := diffed.2
    let query := (pops.extractQuery path).getD []
    let fromRes := runTransitionFromHooks handlers fromMatches {}
    if fromRes.error.isSome || fromRes.t.isAborted then
      some { router := r, cbError := fromRes.error, cbAbortReason := fromRes.t.abortReason,
             t := fromRes.t, deferredQ := fromRes.deferredQ,
             fromEvents := fromRes.events, toEvents := [] }
    else
      let toRes := runTransitionToHooks handlers toMatches query fromRes.t
      if toRes.error.isSome || toRes.t.isAborted then
        some { router := r, cbError := toRes.error, cbAbortReason := toRes.t.abortReason,
               t := toRes.t, deferredQ := fromRes.deferredQ || toRes.deferredQ,
               fromEvents := fromRes.events, toEvents := toRes.events }
      else
        let ms := currentMatches.take (currentMatches.length - fromMatches.length) ++ toMatches
        let params :=
          match getRootMatch ms with
          | some m => m.params
          | none => []
        let st : ResolvedState :=
          { matches' := ms, path := path, routes := ms.map (·.route),
            params := params, query := query }
        some { router := { r with nextState := some st },
               cbError := none, cbAbortReason := none,
               t := toRes.t, deferredQ := fromRes.deferredQ || toRes.deferredQ,
               fromEvents := fromRes.events, toEvents := toRes.events }

/-- `flipSwitch` (lines 304–307): `this.state = this._nextState; delete
this._nextState` — unconditional, so with no pending state the committed
state becomes `undefined`. -/
def flipSwitch (r : Router) : Router :=
  { state :=
      match r.nextState with
      | some s => .resolved s
      | none => .undef,
    nextState := none }

/-! ## Specification-side reformulations used to characterize the code -/

/-- One route's attempt in the search order of the spec (§4.1, steps 1a/1b):
its child subtree first (with its own fallbacks); only if that fails, its
own pattern against the full path. -/
def matchRoute (ext : Extract) (path : String) (r : Route) : Option (List Match) :=
  match findMatches ext path r.childRoutes r.defaultRoute r.notFoundRoute with
  | some ms => some (⟨r, reduceParams r.paramNames (rootParamsOf ms)⟩ :: ms)
  | none =>
    match ext r.path path with
    | some params => some [⟨r, params⟩]
    | none => none

/-- The fallback attempts of the spec (§4.1, steps 2/3): default route
first, then the not-found route, else null. -/
def matchFallbacks (ext : Extract) (path : String) (dflt nf : Option Route) :
    Option (List Match) :=
  match dflt with
  | some d =>
    match ext d.path path with
    | some params => some [⟨d, params⟩]
    | none =>
      match nf with
      | some n =>
        match ext n.path path with
        | some params => some [⟨n, params⟩]
        | none => none
      | none => none
  | none =>
    match nf with
    | some n =>
      match ext n.path path with
      | some params => some [⟨n, params⟩]
      | none => none
    | none => none

/-- Modelled from the spec's words (claim C4): two matches are equal when
they reference the same Route object and have an identical parameter
mapping — the same values under JS indexing in BOTH directions, over the
keys of either side. -/
def specMatchEqual (a b : Match) : Bool :=
  a.route.rid == b.route.rid &&
    (a.params.all (fun kv => a.params.idx kv.1 == b.params.idx kv.1) &&
     b.params.all (fun kv => b.params.idx kv.1 == a.params.idx kv.1))

/-! ## Helper lemmas -/

/-- `findMatches` is exactly: first success of the per-route
subtree-then-own-pattern attempt, in declaration order, and the
default/not-found fallbacks only when every route failed. -/
theorem findMatches_characterization (ext : Extract) (path : String) :
    ∀ (routes : List Route) (dflt nf : Option Route),
      findMatches ext path routes dflt nf =
        match routes.findSome? (matchRoute ext path) with
        | some ms => some ms
        | none => matchFallbacks ext path dflt nf := by
  intro routes
  induction routes with
  | nil =>
    intro dflt nf
    cases dflt <;> cases nf <;> simp [findMatches, matchFallbacks, List.findSome?]
  | cons r rest ih =>
    intro dflt nf
    cases r with
    | mk rid rpath pns children cdflt cnf =>
      cases hc : findMatches ext path children cdflt cnf with
      | some ms =>
        simp [findMatches, hc, List.findSome?, matchRoute,
          Route.childRoutes, Route.defaultRoute, Route.notFoundRoute,
          Route.paramNames]
      | none =>
        cases he : ext rpath path with
        | some ps =>
          simp [findMatches, hc, he, List.findSome?, matchRoute,
            Route.childRoutes, Route.defaultRoute, Route.notFoundRoute,
            Route.paramNames, Route.path]
        | none =>
          simp [findMatches, hc, he, List.findSome?, matchRoute,
            Route.childRoutes, Route.defaultRoute, Route.notFoundRoute,
            Route.paramNames, Route.path]
          exact ih dflt nf

/-- A match literally contained in a chain always has a `hasMatch`
counterpart there (itself). -/
theorem hasMatch_of_mem {ms : List Match} {m : Match} (h : m ∈ ms) : hasMatch ms m = true := by
  unfold hasMatch
  rw [List.any_eq_true]
  refine ⟨m, h, ?_⟩
  simp

/-! ## Concrete fixtures for witnesses and counterexamples -/

/-- Leaf route `/t1/:a/:b`. -/
def exT1 : Route := .mk 2 "/t1/:a/:b" [] [] none none
/-- Leaf route `/t2/:a/:b`. -/
def exT2 : Route := .mk 3 "/t2/:a/:b" [] [] none none
/-- Middle route with children `exT1`, `exT2` and declared param `b`. -/
def exS : Route := .mk 1 "/s" ["b"] [exT1, exT2] none none
/-- Top route with child `exS` and declared param `a`. -/
def exR : Route := .mk 0 "/r" ["a"] [exS] none none

/-- Concrete external path matcher for the fixture tree. -/
def exExt : Extract := fun pat s =>
  if pat = "/t1/:a/:b" && s = "/t1/1/2" then some [("a", some "1"), ("b", some "2")]
  else if pat = "/t2/:a/:b" && s = "/t2/3/2" then some [("a", some "3"), ("b", some "2")]
  else none

/-- Concrete path helpers: no query strings in play. -/
def exPops : PathOps :=
  { extractParams := exExt, withoutQuery := id, extractQuery := fun _ => none }

/-- Handlers defining no transition hooks. -/
def noHooks : Handlers := fun _ => {}

/-- The chain resolved for `/t1/1/2`:
`[exR{a:1}, exS{b:2}, exT1{a:1,b:2}]`. -/
def exChain1 : List Match := (findMatches exExt "/t1/1/2" [exR] none none).getD []

/-- The chain resolved for `/t2/3/2`:
`[exR{a:3}, exS{b:2}, exT2{a:3,b:2}]`. -/
def exChain2 : List Match := (findMatches exExt "/t2/3/2" [exR] none none).getD []

/-- A committed Resolved State holding `exChain1`. -/
def exState1 : ResolvedState :=
  { matches' := exChain1, path := "/t1/1/2", routes := exChain1.map (·.route),
    params := [], query := [] }

/-- A router whose committed chain is `exChain1`, nothing pending. -/
def exRouter1 : Router := { state := .resolved exState1, nextState := none }

/-- Match on `exS` shared between the two fixture diff chains. -/
def exMS : Match := ⟨exS, [("b", some "2")]⟩
/-- Match on `exT1` private to the first fixture diff chain. -/
def exMT1 : Match := ⟨exT1, [("a", some "1"), ("b", some "2")]⟩
/-- Match on `exT2` private to the second fixture diff chain. -/
def exMT2 : Match := ⟨exT2, [("a", some "3"), ("b", some "2")]⟩

/-- A route used for params-equality counterexamples. -/
def exPlainRoute : Route := .mk 9 "/p" [] [] none none

/-- Leaf route `/posts/:id` under a pathless app route. -/
def exPost : Route := .mk 11 "/posts/:id" [] [] none none
/-- Pathless app route owning `exPost`. -/
def exApp : Route := .mk 10 "" [] [exPost] none none

/-- External matcher for the app/post fixture. -/
def exExt9 : Extract := fun pat s =>
  if pat = "/posts/:id" && s = "/posts/123" then some [("id", some "123")] else none

/-- Path helpers for the app/post fixture. -/
def exPops9 : PathOps :=
  { extractParams := exExt9, withoutQuery := id, extractQuery := fun _ => none }

/-- A fresh router: initial `{}` state, nothing pending. -/
def exRouter0 : Router := { state := .empty, nextState := none }

/-- The pending state produced by dispatching `/x` on a router with no
routes: an empty chain. -/
def exState0 : ResolvedState :=
  { matches' := [], path := "/x", routes := [], params := [], query := [] }

/-- The outcome of dispatching `/x` on a fresh router with no routes. -/
def exOutcome0 : DispatchOutcome :=
  { router := { state := .empty, nextState := some exState0 },
    cbError := none, cbAbortReason := none, t := {},
    deferredQ := false, fromEvents := [], toEvents := [] }

/-! ## Evaluation helpers for the no-hook handlers -/

/-- Under `noHooks`, running a leaving phase from a promise-free transition
does nothing: the same transition, still synchronous, no error, no handler
invocation. -/
theorem runHooks_fromWrapper_noHooks (ms : List Match) :
    ∀ (t : Transition) (asyncQ : Bool) (evs : List Nat), t.promise = none →
      runHooks (ms.map (fun m => fromWrapper noHooks m)) t asyncQ evs =
        ⟨t, asyncQ, none, evs⟩ := by
  induction ms with
  | nil => intro t a evs _; rfl
  | cons m ms ih =>
    intro t a evs hp
    rcases t with ⟨ab, r, p⟩
    obtain rfl : p = none := hp
    cases ab <;> simp [runHooks, fromWrapper, noHooks] <;> exact ih _ _ _ rfl

/-- Under `noHooks`, running an entering phase from a promise-free
transition does nothing. -/
theorem runHooks_toWrapper_noHooks (query : Params) (ms : List Match) :
    ∀ (t : Transition) (asyncQ : Bool) (evs : List Nat), t.promise = none →
      runHooks (ms.map (fun m => toWrapper noHooks query m)) t asyncQ evs =
        ⟨t, asyncQ, none, evs⟩ := by
  induction ms with
  | nil => intro t a evs _; rfl
  | cons m ms ih =>
    intro t a evs hp
    rcases t with ⟨ab, r, p⟩
    obtain rfl : p = none := hp
    cases ab <;> simp [runHooks, toWrapper, noHooks] <;> exact ih _ _ _ rfl

/-- With `noHooks`, every dispatch on a readable state takes the success
path and stores the pending state computed from the diff. -/
theorem dispatch_noHooks (pops : PathOps) (routes : List Route) (dflt nf : Option Route)
    (r : Router) (path : String) (cur : List Match)
    (hst : stateMatches r.state = some cur) :
    dispatch pops noHooks routes dflt nf r path =
      (let nextMatches := (routerMatch pops routes dflt nf path).getD [];
       let fromMatches := (computeDiff cur nextMatches).1;
       let toMatches := (computeDiff cur nextMatches).2;
       let ms := cur.take (cur.length - fromMatches.length) ++ toMatches;
       let st : ResolvedState :=
         { matches' := ms, path := path, routes := ms.map (fun m => m.route),
           params := rootParamsOf ms, query := (pops.extractQuery path).getD [] };
       some { router := { r with nextState := some st },
              cbError := none, cbAbortReason := none, t := {},
              deferredQ := false, fromEvents := [], toEvents := [] }) := by
  simp [dispatch, hst, runTransitionFromHooks, runTransitionToHooks,
    runHooks_fromWrapper_noHooks, runHooks_toWrapper_noHooks, rootParamsOf, getRootMatch]

/-- Literal value of the chain resolved for `/t1/1/2`. -/
theorem exChain1_eval :
    exChain1 = [⟨exR, [("a", some "1")]⟩, ⟨exS, [("b", some "2")]⟩,
                ⟨exT1, [("a", some "1"), ("b", some "2")]⟩] := by
  simp [exChain1, exR, exS, exT1, exT2, exExt, findMatches, reduceParams, rootParamsOf,
    getRootMatch, Params.idx, Params.set, Route.path, Route.paramNames, Route.childRoutes,
    Route.defaultRoute, Route.notFoundRoute, List.lookup]

/-- Literal value of the next chain matched while dispatching `/t2/3/2`. -/
theorem exNext2_eval :
    routerMatch exPops [exR] none none "/t2/3/2" =
      some [⟨exR, [("a", some "3")]⟩, ⟨exS, [("b", some "2")]⟩,
            ⟨exT2, [("a", some "3"), ("b", some "2")]⟩] := by
  simp [routerMatch, exPops, exR, exS, exT1, exT2, exExt, findMatches, reduceParams,
    rootParamsOf, getRootMatch, Params.idx, Params.set, Route.path, Route.paramNames,
    Route.childRoutes, Route.defaultRoute, Route.notFoundRoute, List.lookup]

/-- Literal value of the next chain matched while dispatching
`/posts/123`. -/
theorem exNext9_eval :
    routerMatch exPops9 [exApp] none none "/posts/123" =
      some [⟨exApp, []⟩, ⟨exPost, [("id", some "123")]⟩] := by
  simp [routerMatch, exPops9, exApp, exPost, exExt9, findMatches, reduceParams,
    rootParamsOf, getRootMatch, Params.idx, Params.set, Route.path, Route.paramNames,
    Route.childRoutes, Route.defaultRoute, Route.notFoundRoute, List.lookup]

/-- The no-routes dispatch of `/x` on a fresh router evaluates to
`exOutcome0`. -/
theorem exDispatch0_eval :
    dispatch exPops9 noHooks [] none none exRouter0 "/x" = some exOutcome0 := by
  rw [dispatch_noHooks exPops9 [] none none exRouter0 "/x" [] rfl]
  simp [routerMatch, exPops9, exRouter0, findMatches, computeDiff, exOutcome0,
    exState0, rootParamsOf, getRootMatch]

/-- Route-id values of the fixture routes. -/
theorem exR_rid : exR.rid = 0 := rfl
/-- Route-id value of `exS`. -/
theorem exS_rid : exS.rid = 1 := rfl
/-- Route-id value of `exT1`. -/
theorem exT1_rid : exT1.rid = 2 := rfl
/-- Route-id value of `exT2`. -/
theorem exT2_rid : exT2.rid = 3 := rfl
/-- Route-id value of `exApp`. -/
theorem exApp_rid : exApp.rid = 10 := rfl
/-- Route-id value of `exPost`. -/
theorem exPost_rid : exPost.rid = 11 := rfl

/-- Handlers whose every hook is a no-op. -/
def allNopHooks : Handlers := fun _ =>
  { willTransitionFrom := some { eff := .nop, ret := none },
    willTransitionTo := some { eff := .nop, ret := none } }

/-- Handlers where the deepest leaving handler (`exT1`, id 2) aborts with
reason "stop" and every other handler's leaving hook is a no-op. -/
def exAbortHooks : Handlers := fun n =>
  if n = 2 then { willTransitionFrom := some { eff := .abort "stop", ret := none } }
  else { willTransitionFrom := some { eff := .nop, ret := none } }

/-- Handlers where the handler of `exPost` (id 11) attaches a wait
(`transition.wait`) in its leaving hook and returns undefined. -/
def exWaitFromHooks : Handlers := fun n =>
  if n = 11 then { willTransitionFrom := some { eff := .wait 7, ret := none } } else {}

/-- Handlers whose every leaving hook attaches the wait token 9. -/
def exWaitFromHooks9 : Handlers := fun _ =>
  { willTransitionFrom := some { eff := .wait 9, ret := none } }

/-- Route-id value of `exPlainRoute`. -/
theorem exPlainRoute_rid : exPlainRoute.rid = 9 := rfl

/-- Handlers where the leaving handler (`exPlainRoute`, id 9) attaches
wait token 7 in its `willTransitionFrom` and returns undefined, while
every other handler has a no-op `willTransitionTo`. -/
def exWaitLeaveHooks : Handlers := fun n =>
  if n = 9 then { willTransitionFrom := some { eff := .wait 7, ret := none } }
  else { willTransitionTo := some { eff := .nop, ret := none } }

/-- Handlers where the deepest leaving handler (`exPost`, id 11, run
first) attaches wait token 7 and returns undefined, while the next
leaving handler (`exApp`, id 10) has a no-op `willTransitionFrom`. -/
def exWaitThenNop : Handlers := fun n =>
  if n = 11 then { willTransitionFrom := some { eff := .wait 7, ret := none } }
  else { willTransitionFrom := some { eff := .nop, ret := none } }

/-- A committed state whose chain is the single match on
`exPlainRoute`. -/
def exStateP : ResolvedState :=
  { matches' := [⟨exPlainRoute, []⟩], path := "/p", routes := [exPlainRoute],
    params := [], query := [] }

/-- A router committed to the `exPlainRoute` chain, nothing pending. -/
def exRouterP : Router := { state := .resolved exStateP, nextState := none }

/-- The pending state stored by the all-no-op dispatch of `/posts/123`. -/
def exState5 : ResolvedState :=
  { matches' := [⟨exApp, []⟩, ⟨exPost, [("id", some "123")]⟩],
    path := "/posts/123", routes := [exApp, exPost],
    params := [("id", some "123")], query := [] }

/-- Outcome of dispatching `/posts/123` on a fresh router with all-no-op
hooks: both entering hooks run root-first. -/
def exO5 : DispatchOutcome :=
  { router := { state := .empty, nextState := some exState5 },
    cbError := none, cbAbortReason := none, t := {}, deferredQ := false,
    fromEvents := [], toEvents := [10, 11] }

/-- `exPops9` carries no query parser. -/
theorem exPops9_extractQuery (s : String) : exPops9.extractQuery s = none := rfl

/-- Outcome of dispatching `/t2/3/2` over committed chain `exChain1` when
the deepest leaving hook aborts: only that hook ran, the dispatch reports
the abort reason, and the router is untouched. -/
def exO6 : DispatchOutcome :=
  { router := exRouter1, cbError := none, cbAbortReason := some "stop",
    t := ⟨true, some "stop", none⟩, deferredQ := false, fromEvents := [2], toEvents := [] }

/-- The all-no-op dispatch of `/posts/123` evaluates to `exO5`. -/
theorem exDispatch5_eval :
    dispatch exPops9 allNopHooks [exApp] none none exRouter0 "/posts/123" = some exO5 := by
  simp [dispatch, stateMatches, exRouter0, exNext9_eval, computeDiff,
    runTransitionFromHooks, runTransitionToHooks, reversedArray, runHooks, fromWrapper,
    toWrapper, allNopHooks, runHookBeh, exApp_rid, exPost_rid, rootParamsOf, getRootMatch,
    exO5, exState5, exPops9_extractQuery]

/-- The aborting dispatch of `/t2/3/2` evaluates to `exO6`. -/
theorem exDispatch6_eval :
    dispatch exPops exAbortHooks [exR] none none exRouter1 "/t2/3/2" = some exO6 := by
  have hst : stateMatches exRouter1.state = some exChain1 := rfl
  simp only [dispatch, hst, exNext2_eval, exChain1_eval]
  simp [computeDiff, hasMatch, Params.idx, List.lookup, exR_rid, exS_rid, exT1_rid,
    exT2_rid, runTransitionFromHooks, reversedArray, runHooks, fromWrapper, exAbortHooks,
    runHookBeh, exO6]

/-! ## Hook-pipeline helper lemmas -/

/-- The trace event (invoked handler's route id, if any) of a wrapper
outcome. -/
def WrapOut.ev : WrapOut → Option Nat
  | .ok _ _ ev => ev
  | .err _ _ ev => ev

/-- A hook body that neither aborts nor throws. -/
def HookBeh.quiet (b : HookBeh) : Bool :=
  match b.eff with
  | .abort _ => false
  | .throwErr _ => false
  | _ => true

/-- A hook body that requests no asynchronous wait and returns no
promise. -/
def HookBeh.syncB (b : HookBeh) : Bool :=
  (match b.eff with
   | .wait _ => false
   | _ => true) && b.ret.isNone

/-- A handler none of whose hooks goes asynchronous. -/
def Handler.syncB (h : Handler) : Bool :=
  h.willTransitionFrom.all HookBeh.syncB && h.willTransitionTo.all HookBeh.syncB

/-- A `fromWrapper` emits at most the event of its own match. -/
theorem fromWrapper_ev_bound (handlers : Handlers) (m : Match) (t : Transition) :
    ((fromWrapper handlers m t).ev).toList.Sublist [m.route.rid] := by
  rcases t with ⟨ab, r, p⟩
  cases hb : (handlers m.route.rid).willTransitionFrom with
  | none => cases ab <;> simp [fromWrapper, hb, WrapOut.ev]
  | some b =>
    cases ab
    · cases hr : runHookBeh b ⟨false, r, p⟩ <;> simp [fromWrapper, hb, hr, WrapOut.ev]
    · simp [fromWrapper, hb, WrapOut.ev]

/-- A `toWrapper` emits at most the event of its own match. -/
theorem toWrapper_ev_bound (handlers : Handlers) (query : Params) (m : Match) (t : Transition) :
    ((toWrapper handlers query m t).ev).toList.Sublist [m.route.rid] := by
  rcases t with ⟨ab, r, p⟩
  cases hb : (handlers m.route.rid).willTransitionTo with
  | none => cases ab <;> simp [toWrapper, hb, WrapOut.ev]
  | some b =>
    cases ab
    · cases hr : runHookBeh b ⟨false, r, p⟩ <;> simp [toWrapper, hb, hr, WrapOut.ev]
    · simp [toWrapper, hb, WrapOut.ev]

/-- Serial hook running only appends events, and each wrapper contributes
at most its own match's event in list order. -/
theorem runHooks_events_extend (wrap : Match → Transition → WrapOut)
    (hw : ∀ m t, ((wrap m t).ev).toList.Sublist [m.route.rid]) :
    ∀ (ms : List Match) (t : Transition) (a : Bool) (evs : List Nat),
      ∃ tail, (runHooks (ms.map (fun m => wrap m)) t a evs).events = evs ++ tail ∧
        tail.Sublist (ms.map (fun m => m.route.rid)) := by
  intro ms
  induction ms with
  | nil => intro t a evs; exact ⟨[], by simp [runHooks], List.nil_sublist _⟩
  | cons m ms ih =>
    intro t a evs
    have hm := hw m t
    cases hmt : wrap m t with
    | ok t' ret ev =>
      obtain ⟨tail, htail, hsub⟩ := ih t' (a || ret.isSome) (evs ++ ev.toList)
      refine ⟨ev.toList ++ tail, ?_, ?_⟩
      · simp [runHooks, hmt, htail]
      · rw [hmt] at hm
        simp only [WrapOut.ev] at hm
        exact List.Sublist.append hm hsub
    | err t' e ev =>
      refine ⟨ev.toList, ?_, ?_⟩
      · simp [runHooks, hmt]
      · rw [hmt] at hm
        simp only [WrapOut.ev] at hm
        exact hm.trans (by simp)

/-- Once the transition is aborted, the remaining leaving-phase wrappers
invoke no handler hook, raise no error, and leave the abort flag and
reason in place. -/
theorem runHooks_fromWrapper_aborted (handlers : Handlers) (ms : List Match) :
    ∀ (t : Transition) (a : Bool) (evs : List Nat), t.isAborted = true →
      (runHooks (ms.map (fun m => fromWrapper handlers m)) t a evs).events = evs ∧
      (runHooks (ms.map (fun m => fromWrapper handlers m)) t a evs).t.isAborted = true ∧
      (runHooks (ms.map (fun m => fromWrapper handlers m)) t a evs).t.abortReason =
        t.abortReason ∧
      (runHooks (ms.map (fun m => fromWrapper handlers m)) t a evs).error = none := by
  induction ms with
  | nil => intro t a evs hab; exact ⟨rfl, hab, rfl, rfl⟩
  | cons m ms ih =>
    intro t a evs hab
    rcases t with ⟨ab, r, p⟩
    obtain rfl : ab = true := hab
    simpa [runHooks, fromWrapper] using ih ⟨true, r, none⟩ (a || p.isSome) evs rfl

/-- Once the transition is aborted, the remaining entering-phase wrappers
invoke no handler hook, raise no error, and leave the abort flag and
reason in place. -/
theorem runHooks_toWrapper_aborted (handlers : Handlers) (query : Params) (ms : List Match) :
    ∀ (t : Transition) (a : Bool) (evs : List Nat), t.isAborted = true →
      (runHooks (ms.map (fun m => toWrapper handlers query m)) t a evs).events = evs ∧
      (runHooks (ms.map (fun m => toWrapper handlers query m)) t a evs).t.isAborted = true ∧
      (runHooks (ms.map (fun m => toWrapper handlers query m)) t a evs).t.abortReason =
        t.abortReason ∧
      (runHooks (ms.map (fun m => toWrapper handlers query m)) t a evs).error = none := by
  induction ms with
  | nil => intro t a evs hab; exact ⟨rfl, hab, rfl, rfl⟩
  | cons m ms ih =>
    intro t a evs hab
    rcases t with ⟨ab, r, p⟩
    obtain rfl : ab = true := hab
    simpa [runHooks, toWrapper] using ih ⟨true, r, none⟩ (a || p.isSome) evs rfl

/-- When every match in a leaving phase has a `willTransitionFrom` hook
that neither aborts nor throws, starting unaborted, every hook is invoked,
in list order, and the phase ends unaborted with no error. -/
theorem runHooks_fromWrapper_quiet (handlers : Handlers) (ms : List Match)
    (hall : ∀ m ∈ ms, ∃ b, (handlers m.route.rid).willTransitionFrom = some b ∧
        b.quiet = true) :
    ∀ (t : Transition) (a : Bool) (evs : List Nat), t.isAborted = false →
      (runHooks (ms.map (fun m => fromWrapper handlers m)) t a evs).events =
        evs ++ ms.map (fun m => m.route.rid) ∧
      (runHooks (ms.map (fun m => fromWrapper handlers m)) t a evs).t.isAborted = false ∧
      (runHooks (ms.map (fun m => fromWrapper handlers m)) t a evs).error = none := by
  induction ms with
  | nil => intro t a evs hab; exact ⟨by simp [runHooks], hab, rfl⟩
  | cons m ms ih =>
    intro t a evs hab
    obtain ⟨b, hb, hq⟩ := hall m (by simp)
    have hall' : ∀ x ∈ ms, ∃ b, (handlers x.route.rid).willTransitionFrom = some b ∧
        b.quiet = true := fun x hx => hall x (by simp [hx])
    rcases t with ⟨ab, r, p⟩
    obtain rfl : ab = false := hab
    cases heff : b.eff with
    | nop =>
      simpa [runHooks, fromWrapper, hb, runHookBeh, heff] using
        ih hall' ⟨false, r, p⟩ (a || b.ret.isSome) (evs ++ [m.route.rid]) rfl
    | wait tok =>
      simpa [runHooks, fromWrapper, hb, runHookBeh, heff] using
        ih hall' ⟨false, r, some tok⟩ (a || b.ret.isSome) (evs ++ [m.route.rid]) rfl
    | abort reason => exact absurd hq (by simp [HookBeh.quiet, heff])
    | throwErr e => exact absurd hq (by simp [HookBeh.quiet, heff])

/-- When every match in an entering phase has a `willTransitionTo` hook
that neither aborts nor throws, starting unaborted, every hook is invoked,
in list order, and the phase ends unaborted with no error. -/
theorem runHooks_toWrapper_quiet (handlers : Handlers) (query : Params) (ms : List Match)
    (hall : ∀ m ∈ ms, ∃ b, (handlers m.route.rid).willTransitionTo = some b ∧
        b.quiet = true) :
    ∀ (t : Transition) (a : Bool) (evs : List Nat), t.isAborted = false →
      (runHooks (ms.map (fun m => toWrapper handlers query m)) t a evs).events =
        evs ++ ms.map (fun m => m.route.rid) ∧
      (runHooks (ms.map (fun m => toWrapper handlers query m)) t a evs).t.isAborted = false ∧
      (runHooks (ms.map (fun m => toWrapper handlers query m)) t a evs).error = none := by
  induction ms with
  | nil => intro t a evs hab; exact ⟨by simp [runHooks], hab, rfl⟩
  | cons m ms ih =>
    intro t a evs hab
    obtain ⟨b, hb, hq⟩ := hall m (by simp)
    have hall' : ∀ x ∈ ms, ∃ b, (handlers x.route.rid).willTransitionTo = some b ∧
        b.quiet = true := fun x hx => hall x (by simp [hx])
    rcases t with ⟨ab, r, p⟩
    obtain rfl : ab = false := hab
    cases heff : b.eff with
    | nop =>
      simpa [runHooks, toWrapper, hb, runHookBeh, heff] using
        ih hall' ⟨false, r, none⟩ (a || p.isSome) (evs ++ [m.route.rid]) rfl
    | wait tok =>
      simpa [runHooks, toWrapper, hb, runHookBeh, heff] using
        ih hall' ⟨false, r, none⟩ (a || true) (evs ++ [m.route.rid]) rfl
    | abort reason => exact absurd hq (by simp [HookBeh.quiet, heff])
    | throwErr e => exact absurd hq (by simp [HookBeh.quiet, heff])

/-- With only synchronous hooks (no wait, no returned promise) and no
pending promise, a leaving phase never turns the chain asynchronous and
leaves no pending promise. -/
theorem runHooks_fromWrapper_sync (handlers : Handlers)
    (hsync : ∀ n, (handlers n).syncB = true) (ms : List Match) :
    ∀ (t : Transition) (a : Bool) (evs : List Nat), t.promise = none →
      (runHooks (ms.map (fun m => fromWrapper handlers m)) t a evs).deferredQ = a ∧
      (runHooks (ms.map (fun m => fromWrapper handlers m)) t a evs).t.promise = none := by
  induction ms with
  | nil => intro t a evs hp; exact ⟨rfl, hp⟩
  | cons m ms ih =>
    intro t a evs hp
    rcases t with ⟨ab, r, p⟩
    obtain rfl : p = none := hp
    cases hb : (handlers m.route.rid).willTransitionFrom with
    | none =>
      cases ab <;>
        simpa [runHooks, fromWrapper, hb] using ih ⟨_, r, none⟩ a _ rfl
    | some b =>
      have hsb : b.syncB = true := by
        have h0 := hsync m.route.rid
        rw [Handler.syncB, hb, Bool.and_eq_true] at h0
        simpa [Option.all] using h0.1
      have hret : b.ret = none := by
        simp [HookBeh.syncB, Bool.and_eq_true, Option.isNone_iff_eq_none] at hsb
        exact hsb.2
      cases ab
      · cases heff : b.eff with
        | nop =>
          simpa [runHooks, fromWrapper, hb, runHookBeh, heff, hret] using
            ih ⟨false, r, none⟩ a _ rfl
        | abort reason =>
          simpa [runHooks, fromWrapper, hb, runHookBeh, heff, hret] using
            ih ⟨true, some reason, none⟩ a _ rfl
        | wait tok =>
          exact absurd hsb (by simp [HookBeh.syncB, heff])
        | throwErr e =>
          simp [runHooks, fromWrapper, hb, runHookBeh, heff]
      · simpa [runHooks, fromWrapper, hb] using ih ⟨_, r, none⟩ a _ rfl

/-- With only synchronous hooks and no pending promise, an entering phase
never turns the chain asynchronous and leaves no pending promise. -/
theorem runHooks_toWrapper_sync (handlers : Handlers) (query : Params)
    (hsync : ∀ n, (handlers n).syncB = true) (ms : List Match) :
    ∀ (t : Transition) (a : Bool) (evs : List Nat), t.promise = none →
      (runHooks (ms.map (fun m => toWrapper handlers query m)) t a evs).deferredQ = a ∧
      (runHooks (ms.map (fun m => toWrapper handlers query m)) t a evs).t.promise = none := by
  induction ms with
  | nil => intro t a evs hp; exact ⟨rfl, hp⟩
  | cons m ms ih =>
    intro t a evs hp
    rcases t with ⟨ab, r, p⟩
    obtain rfl : p = none := hp
    cases hb : (handlers m.route.rid).willTransitionTo with
    | none =>
      cases ab <;>
        simpa [runHooks, toWrapper, hb] using ih ⟨_, r, none⟩ a _ rfl
    | some b =>
      have hsb : b.syncB = true := by
        have h0 := hsync m.route.rid
        rw [Handler.syncB, hb, Bool.and_eq_true] at h0
        simpa [Option.all] using h0.2
      cases ab
      · cases heff : b.eff with
        | nop =>
          simpa [runHooks, toWrapper, hb, runHookBeh, heff] using
            ih ⟨false, r, none⟩ a _ rfl
        | abort reason =>
          simpa [runHooks, toWrapper, hb, runHookBeh, heff] using
            ih ⟨true, some reason, none⟩ a _ rfl
        | wait tok =>
          exact absurd hsb (by simp [HookBeh.syncB, heff])
        | throwErr e =>
          simp [runHooks, toWrapper, hb, runHookBeh, heff]
      · simpa [runHooks, toWrapper, hb] using ih ⟨_, r, none⟩ a _ rfl

/-- Once the reduce value has become a promise, the phase's callback is
deferred behind it, whatever the remaining hooks do: the first wrapper to
return a promise makes the rest of the phase asynchronous. -/
theorem runHooks_deferred_of_async (ws : List (Transition → WrapOut)) :
    ∀ (t : Transition) (evs : List Nat), (runHooks ws t true evs).deferredQ = true := by
  induction ws with
  | nil => intro t evs; rfl
  | cons w ws ih =>
    intro t evs
    cases hw : w t with
    | ok t' ret ev => simpa [runHooks, hw] using ih t' (evs ++ ev.toList)
    | err t' e ev => simp [runHooks, hw]

/-- The leaving set a dispatch computes for a router and path. -/
def dispatchLeaving (pops : PathOps) (routes : List Route) (dflt nf : Option Route)
    (r : Router) (path : String) : List Match :=
  (computeDiff ((stateMatches r.state).getD [])
    ((routerMatch pops routes dflt nf path).getD [])).1

/-- The entering set a dispatch computes for a router and path. -/
def dispatchEntering (pops : PathOps) (routes : List Route) (dflt nf : Option Route)
    (r : Router) (path : String) : List Match :=
  (computeDiff ((stateMatches r.state).getD [])
    ((routerMatch pops routes dflt nf path).getD [])).2

/-! ## Claim theorems -/

/-- **C1.** For every path, route list, default route and not-found route,
the matcher is a depth-first, left-to-right search: `findMatches` equals
the first success, in declaration order, of the per-route attempt
`matchRoute` (child subtree first, then the route's own pattern), with the
level's default route attempted only after every sibling (subtree
included) failed, the not-found route only after the default failed, and
`none` when nothing matched; moreover, whenever a route's subtree matches,
that chain is returned at once — prepended with the route's own reduced
params — regardless of later siblings, the fallback routes, or whether the
route's own pattern would also have matched. -/
theorem matcher_search_order (ext : Extract) (path : String) :
    (∀ (routes : List Route) (dflt nf : Option Route),
      findMatches ext path routes dflt nf =
        match routes.findSome? (matchRoute ext path) with
        | some ms => some ms
        | none => matchFallbacks ext path dflt nf)
  ∧ (∀ (r : Route) (ms : List Match) (rest : List Route) (dflt nf : Option Route),
      findMatches ext path r.childRoutes r.defaultRoute r.notFoundRoute = some ms →
      findMatches ext path (r :: rest) dflt nf =
        some (⟨r, reduceParams r.paramNames (rootParamsOf ms)⟩ :: ms)) := by
  refine ⟨findMatches_characterization ext path, ?_⟩
  intro r ms rest dflt nf hc
  cases r with
  | mk rid rpath pns children cdflt cnf =>
    simp only [Route.childRoutes, Route.defaultRoute, Route.notFoundRoute] at hc
    simp [findMatches, hc, Route.paramNames]

/-- Witness for C1: on the fixture tree, `exS`'s subtree matches
`/t1/1/2`, so the chain through `exT1` is returned with `exS`'s reduced
params prepended. -/
theorem matcher_search_order_witness :
    findMatches exExt "/t1/1/2" [exS] none none =
      some [⟨exS, reduceParams exS.paramNames (rootParamsOf [exMT1])⟩, exMT1] :=
  (matcher_search_order exExt "/t1/1/2").2 exS [exMT1] [] none none
    (by simp [exS, exT1, exT2, exExt, exMT1, Route.childRoutes, Route.defaultRoute,
          Route.notFoundRoute, findMatches])

/-- Counterexample for **C2**: the chains `A = [exMS, Match(r,{})]` and
`B = [exMS, Match(r,{id:"1"})]` share the pairwise-equal prefix `[exMS]`
and differ only after it — the two suffix matches are NOT equal under the
spec's (route, params) equality (`specMatchEqual` is false) — so the
claim demands `entering = [Match(r,{id:"1"})]`; but `hasMatch`'s
one-directional key check makes the keyless `Match(r,{})` a counterpart
of `Match(r,{id:"1"})`, and the code computes `entering = []`, not the
non-shared suffix of `B`. -/
theorem computeDiff_superset_suffix_cex :
    computeDiff [exMS, ⟨exPlainRoute, []⟩] [exMS, ⟨exPlainRoute, [("id", some "1")]⟩] =
      ([⟨exPlainRoute, []⟩], [])
  ∧ specMatchEqual ⟨exPlainRoute, []⟩ ⟨exPlainRoute, [("id", some "1")]⟩ = false
  ∧ (([] : List (Nat × Params)) ≠ [(9, [("id", some "1")])]) := by
  refine ⟨?_, by decide, by decide⟩
  simp [computeDiff, hasMatch, Params.idx, List.lookup, exMS, exS_rid, exPlainRoute_rid]

/-- **C2 (amended).** The diff computed by `dispatch` (via `computeDiff`):
whenever the current chain `A` and next chain `B` are `P ++ SA` and
`P ++ SB` for a literally shared prefix `P` of identical (route, params)
matches, and no member of either suffix has a counterpart in the other
chain under the code's one-directional `hasMatch` relation (rather than
under pairwise (route, params) equality — a suffix match whose params
merely extend a member of the other chain is still treated as matched and
is dropped from the diff), then `leaving` is exactly `SA` and `entering`
is exactly `SB`; and whenever `A` is empty, `leaving = []` and
`entering = B` in full. -/
theorem dispatch_diff_shared_segment :
    (∀ (P SA SB A B : List Match), A = P ++ SA → B = P ++ SB → A ≠ [] →
        (∀ a ∈ SA, hasMatch B a = false) → (∀ b ∈ SB, hasMatch A b = false) →
        computeDiff A B = (SA, SB))
  ∧ (∀ B : List Match, computeDiff [] B = ([], B)) := by
  constructor
  · intro P SA SB A B hA hB hne h1 h2
    subst hA; subst hB
    have hlen : ((P ++ SA).length != 0) = true := by
      simp only [bne_iff_ne, ne_eq, List.length_eq_zero]
      exact hne
    have hPA : P.filter (fun m => !hasMatch (P ++ SB) m) = [] := by
      rw [List.filter_eq_nil_iff]
      intro a ha
      simp [hasMatch_of_mem (List.mem_append_left SB ha)]
    have hSA : SA.filter (fun m => !hasMatch (P ++ SB) m) = SA := by
      rw [List.filter_eq_self]
      intro a ha
      simp [h1 a ha]
    have hPB : P.filter (fun m => !hasMatch (P ++ SA) m) = [] := by
      rw [List.filter_eq_nil_iff]
      intro b hb
      simp [hasMatch_of_mem (List.mem_append_left SA hb)]
    have hSB : SB.filter (fun m => !hasMatch (P ++ SA) m) = SB := by
      rw [List.filter_eq_self]
      intro b hb
      simp [h2 b hb]
    simp [computeDiff, hlen, List.filter_append, hPA, hSA, hPB, hSB]
    exact fun hP hSA' => ⟨hSA', hP⟩
  · intro B
    rfl

/-- Witness for C2 at concrete chains sharing the prefix `[exMS]` with
disjoint suffixes. -/
theorem dispatch_diff_shared_segment_witness :
    computeDiff [exMS, exMT1] [exMS, exMT2] = ([exMT1], [exMT2]) :=
  dispatch_diff_shared_segment.1 [exMS] [exMT1] [exMT2] [exMS, exMT1] [exMS, exMT2]
    rfl rfl (by simp) (by decide) (by decide)

/-- Counterexample for **C4**: `hasMatch` counts a candidate whose params
strictly extend a chain member's params as equal — here the member has no
params at all while the candidate binds `id`, yet `hasMatch` is true even
though the two parameter mappings are not identical (the spec's
bidirectional equality `specMatchEqual` rejects them). -/
theorem hasMatch_superset_cex :
    hasMatch [⟨exPlainRoute, []⟩] ⟨exPlainRoute, [("id", some "1")]⟩ = true
  ∧ specMatchEqual ⟨exPlainRoute, []⟩ ⟨exPlainRoute, [("id", some "1")]⟩ = false := by
  exact ⟨rfl, rfl⟩

/-- **C4 (amended).** `hasMatch` treats `m` as having a counterpart in a
chain iff some member `x` references the same Route object and every key
of `x`'s OWN params has the same value under JS indexing in `m`'s params;
keys present only in `m` are never checked, so a candidate whose params
strictly extend the member's mapping still counts as equal. -/
theorem hasMatch_characterization (ms : List Match) (m : Match) :
    hasMatch ms m = true ↔
      ∃ x ∈ ms, x.route.rid = m.route.rid ∧
        ∀ kv ∈ x.params, x.params.idx kv.1 = m.params.idx kv.1 := by
  simp [hasMatch, List.any_eq_true, List.all_eq_true, Bool.and_eq_true, beq_iff_eq]

/-- **C10.** `flipSwitch` unconditionally moves the pending slot into the
committed state and deletes the pending slot; called with no pending
Resolved State, the committed state becomes `undefined` (not unchanged,
not an error). -/
theorem flipSwitch_unconditional :
    (∀ r : Router, (flipSwitch r).nextState = none)
  ∧ (∀ r : Router, (flipSwitch r).state =
      match r.nextState with
      | some s => StateObj.resolved s
      | none => StateObj.undef)
  ∧ (∀ r : Router, r.nextState = none → (flipSwitch r).state = StateObj.undef) := by
  refine ⟨fun r => rfl, fun r => rfl, fun r h => ?_⟩
  simp [flipSwitch, h]

/-- Witness for C10: flipping a router with a committed state but no
pending state leaves the committed state `undefined`. -/
theorem flipSwitch_unconditional_witness :
    (flipSwitch exRouter1).state = StateObj.undef :=
  flipSwitch_unconditional.2.2 exRouter1 rfl

/-- Counterexample for **C3**: dispatching `/t2/3/2` over committed chain
`[exR{a:1}, exS{b:2}, exT1]` yields next chain `[exR{a:3}, exS{b:2},
exT2]`; leaving is `[exR{a:1}, exT1]` (not a suffix), so the stored
pending matches — the first `3 − 2` current matches plus the entering
ones, i.e. `[exR{a:1}, exR{a:3}, exT2]` — differ from the claim's "all
current matches not in leaving, then entering", which is `[exS{b:2},
exR{a:3}, exT2]` (matches projected to (route id, params)). -/
theorem dispatch_pending_matches_cex :
    ((dispatch exPops noHooks [exR] none none exRouter1 "/t2/3/2").map
        (fun o => o.router.nextState.map
          (fun st => st.matches'.map (fun m => (m.route.rid, m.params))))) =
      some (some [(0, [("a", some "1")]), (0, [("a", some "3")]),
                  (3, [("a", some "3"), ("b", some "2")])])
  ∧ ((exChain1.filter (fun m => hasMatch exChain2 m) ++
        (computeDiff exChain1 exChain2).2).map (fun m => (m.route.rid, m.params))) =
      [(1, [("b", some "2")]), (0, [("a", some "3")]),
       (3, [("a", some "3"), ("b", some "2")])]
  ∧ ([(0, [("a", some "1")]), (0, [("a", some "3")]),
      (3, [("a", some "3"), ("b", some "2")])] : List (Nat × Params)) ≠
      [(1, [("b", some "2")]), (0, [("a", some "3")]),
       (3, [("a", some "3"), ("b", some "2")])] := by
  refine ⟨?_, ?_, by decide⟩
  · rw [dispatch_noHooks exPops [exR] none none exRouter1 "/t2/3/2" exChain1 rfl,
      exNext2_eval, exChain1_eval]
    simp [computeDiff, hasMatch, Params.idx, List.lookup,
      Route.rid, exR, exS, exT1, exT2, rootParamsOf, getRootMatch]
  · simp [exNext2_eval, exChain1_eval, exChain2, computeDiff, hasMatch, Params.idx,
      List.lookup, Route.rid, exR, exS, exT1, exT2, exExt, findMatches, reduceParams,
      rootParamsOf, getRootMatch, Params.set, Route.path, Route.paramNames,
      Route.childRoutes, Route.defaultRoute, Route.notFoundRoute]

/-- **C3 (amended).** On every dispatch that ends with no error and no
abort, the pending Resolved State's matches equal the first
`currentChain.length − leaving.length` matches of the current chain (a
count-based prefix, equal to "all current matches not in leaving" only
when the leaving set is a suffix of the current chain) concatenated with
the entering matches; its routes are those matches' routes in order, its
path the dispatched path, its query the parsed query, its params the last
match's params; the state is stored as pending only — the committed state
is untouched by dispatch. -/
theorem dispatch_pending_state_composition
    (pops : PathOps) (handlers : Handlers) (routes : List Route) (dflt nf : Option Route)
    (r : Router) (path : String) (o : DispatchOutcome)
    (h : dispatch pops handlers routes dflt nf r path = some o)
    (hok : o.cbError = none) (hab : o.t.isAborted = false) :
    o.router.state = r.state ∧
    o.router.nextState =
      (let currentMatches := (stateMatches r.state).getD [];
       let nextMatches := (routerMatch pops routes dflt nf path).getD [];
       let ms := currentMatches.take
           (currentMatches.length - (computeDiff currentMatches nextMatches).1.length) ++
         (computeDiff currentMatches nextMatches).2;
       some { matches' := ms, path := path, routes := ms.map (fun m => m.route),
              params := rootParamsOf ms, query := (pops.extractQuery path).getD [] }) := by
  cases hst : stateMatches r.state with
  | none => rw [dispatch, hst] at h; cases h
  | some cur =>
    simp only [dispatch, hst] at h
    split at h
    · rename_i hcond
      simp only [Option.some.injEq] at h
      subst h
      simp at hok hab
      simp [hok, hab] at hcond
    · split at h
      · rename_i hcond
        simp only [Option.some.injEq] at h
        subst h
        simp at hok hab
        simp [hok, hab] at hcond
      · simp only [Option.some.injEq] at h
        subst h
        refine ⟨rfl, ?_⟩
        simp [hst, rootParamsOf]

/-- Witness for C3's amended theorem at a concrete successful dispatch. -/
theorem dispatch_pending_state_composition_witness :
    exOutcome0.router.state = exRouter0.state ∧
    exOutcome0.router.nextState =
      (let currentMatches := (stateMatches exRouter0.state).getD [];
       let nextMatches := (routerMatch exPops9 [] none none "/x").getD [];
       let ms := currentMatches.take
           (currentMatches.length - (computeDiff currentMatches nextMatches).1.length) ++
         (computeDiff currentMatches nextMatches).2;
       some { matches' := ms, path := "/x", routes := ms.map (fun m => m.route),
              params := rootParamsOf ms, query := (exPops9.extractQuery "/x").getD [] }) :=
  dispatch_pending_state_composition exPops9 noHooks [] none none exRouter0 "/x"
    exOutcome0 exDispatch0_eval rfl rfl

/-- Counterexample for **C9**: dispatching `/posts/123` over the app/post
tree succeeds with pending chain `[exApp{}, exPost{id:123}]`; the stored
`params` is `{id: "123"}` — the LAST (deepest) match's params — while the
chain's outermost (root, first) match has params `{}`. -/
theorem pending_params_root_cex :
    ((dispatch exPops9 noHooks [exApp] none none exRouter0 "/posts/123").map
        (fun o => o.router.nextState.map
          (fun st => (st.params, st.matches'.head?.map (fun m => m.params))))) =
      some (some ([("id", some "123")], some []))
  ∧ ([("id", some "123")] : Params) ≠ [] := by
  refine ⟨?_, by decide⟩
  rw [dispatch_noHooks exPops9 [exApp] none none exRouter0 "/posts/123" [] rfl,
    exNext9_eval]
  simp [computeDiff, hasMatch, Params.idx, List.lookup, Route.rid,
    exApp, exPost, rootParamsOf, getRootMatch]

/-- **C9 (amended).** In the pending Resolved State produced by a
successful dispatch, the `params` field equals the parameter mapping of
the final chain's LAST match — the innermost (deepest/leaf) one, which is
what `getRootMatch` returns — and the empty mapping when the final chain
is empty (`rootParamsOf`). -/
theorem pending_params_from_last_match
    (pops : PathOps) (handlers : Handlers) (routes : List Route) (dflt nf : Option Route)
    (r : Router) (path : String) (o : DispatchOutcome)
    (h : dispatch pops handlers routes dflt nf r path = some o)
    (hok : o.cbError = none) (hab : o.t.isAborted = false) :
    o.router.nextState.isSome = true ∧
    o.router.nextState.map (fun st => st.params) =
      o.router.nextState.map (fun st => rootParamsOf st.matches') := by
  cases hst : stateMatches r.state with
  | none => rw [dispatch, hst] at h; cases h
  | some cur =>
    simp only [dispatch, hst] at h
    split at h
    · rename_i hcond
      simp only [Option.some.injEq] at h
      subst h
      simp at hok hab
      simp [hok, hab] at hcond
    · split at h
      · rename_i hcond
        simp only [Option.some.injEq] at h
        subst h
        simp at hok hab
        simp [hok, hab] at hcond
      · simp only [Option.some.injEq] at h
        subst h
        exact ⟨rfl, by simp [rootParamsOf]⟩

/-- Witness for C9's amended theorem at a concrete successful dispatch. -/
theorem pending_params_from_last_match_witness :
    exOutcome0.router.nextState.isSome = true ∧
    exOutcome0.router.nextState.map (fun st => st.params) =
      exOutcome0.router.nextState.map (fun st => rootParamsOf st.matches') :=
  pending_params_from_last_match exPops9 noHooks [] none none exRouter0 "/x"
    exOutcome0 exDispatch0_eval rfl rfl

/-- Counterexample for **C5**: a wait attached by a running leaving hook
is not chained.  With `exWaitLeaveHooks`, the only leaving hook attaches
wait token 7 and returns undefined: the leaving phase ends synchronously
(`deferredQ = false`, so `runHooks` fires the phase callback inline) with
the wait still pending on the transition (`promise = some 7`); handed
this un-settled transition, the first entering wrapper invokes its
handler hook (event 10) BEFORE consuming the stale wait (its returned
promise is the leftover `some 7`); and the full dispatch does run both
entering hooks (trace `[10, 11]`).  Likewise within one phase: with
`exWaitThenNop` the deepest leaving hook's wait does not stop the next
leaving hook from being invoked synchronously (trace `[11, 10]`,
`deferredQ = false`, wait still pending at phase end).  This refutes "no
entering hook runs before every leaving hook, including any asynchronous
wait it attached, has settled" and "hook N+1 is not invoked until hook
N's effect has resolved". -/
theorem entering_before_wait_settles_cex :
    runTransitionFromHooks exWaitLeaveHooks [⟨exPlainRoute, []⟩] {} =
      ⟨⟨false, none, some 7⟩, false, none, [9]⟩
  ∧ toWrapper exWaitLeaveHooks [] ⟨exApp, []⟩ ⟨false, none, some 7⟩ =
      .ok ⟨false, none, none⟩ (some 7) (some 10)
  ∧ ((dispatch exPops9 exWaitLeaveHooks [exApp] none none exRouterP "/posts/123").map
        (fun o => (o.fromEvents, o.toEvents, o.deferredQ))) =
      some ([9], [10, 11], true)
  ∧ runTransitionFromHooks exWaitThenNop [⟨exApp, []⟩, ⟨exPost, []⟩] {} =
      ⟨⟨false, none, some 7⟩, false, none, [11, 10]⟩ := by
  refine ⟨by decide, by decide, ?_, by decide⟩
  simp [dispatch, stateMatches, exRouterP, exStateP, exNext9_eval, computeDiff, hasMatch,
    Params.idx, List.lookup, exApp_rid, exPost_rid, exPlainRoute_rid,
    runTransitionFromHooks, runTransitionToHooks, reversedArray, runHooks, fromWrapper,
    toWrapper, exWaitLeaveHooks, runHookBeh, rootParamsOf, getRootMatch,
    exPops9_extractQuery]

/-- **C5 (amended).** Within one dispatch the leaving hooks are invoked
first, deepest-first (reverse chain order), then the entering hooks,
root-first (chain order): the leaving-phase trace is always a sublist of
the reversed leaving set's route ids in that order, the entering-phase
trace a sublist of the entering set's route ids in chain order (hooks may
be skipped when absent or after an abort), and when every involved
handler defines the hook and none aborts or throws, the traces are
exactly these lists; hook N+1's wrapper runs only after hook N's wrapper
has returned, and once some wrapper has RETURNED a promise, every later
hook and the phase callback are deferred behind it (last conjunct).
However — unlike the frozen claim — a wait attached via `transition.wait`
by a running leaving hook is not chained by its own wrapper
(`entering_before_wait_settles_cex`), so the next hook, and the first
entering hook when the reduce stayed synchronous, can be invoked before
that wait settles. -/
theorem hook_invocation_order
    (pops : PathOps) (handlers : Handlers) (routes : List Route) (dflt nf : Option Route)
    (r : Router) (path : String) (o : DispatchOutcome)
    (h : dispatch pops handlers routes dflt nf r path = some o) :
    o.fromEvents.Sublist ((reversedArray (dispatchLeaving pops routes dflt nf r path)).map
        (fun m => m.route.rid)) ∧
    o.toEvents.Sublist ((dispatchEntering pops routes dflt nf r path).map
        (fun m => m.route.rid)) ∧
    ((∀ m ∈ dispatchLeaving pops routes dflt nf r path,
        ∃ b, (handlers m.route.rid).willTransitionFrom = some b ∧ b.quiet = true) →
     (∀ m ∈ dispatchEntering pops routes dflt nf r path,
        ∃ b, (handlers m.route.rid).willTransitionTo = some b ∧ b.quiet = true) →
     o.fromEvents = (reversedArray (dispatchLeaving pops routes dflt nf r path)).map
        (fun m => m.route.rid) ∧
     o.toEvents = (dispatchEntering pops routes dflt nf r path).map
        (fun m => m.route.rid)) ∧
    (∀ (ws : List (Transition → WrapOut)) (t : Transition) (evs : List Nat),
      (runHooks ws t true evs).deferredQ = true) := by
  cases hst : stateMatches r.state with
  | none => rw [dispatch, hst] at h; cases h
  | some cur =>
    have hL : dispatchLeaving pops routes dflt nf r path =
        (computeDiff cur ((routerMatch pops routes dflt nf path).getD [])).1 := by
      simp [dispatchLeaving, hst]
    have hE : dispatchEntering pops routes dflt nf r path =
        (computeDiff cur ((routerMatch pops routes dflt nf path).getD [])).2 := by
      simp [dispatchEntering, hst]
    rw [hL, hE]
    simp only [dispatch, hst] at h
    split at h
    · rename_i hcond
      simp only [Option.some.injEq] at h
      subst h
      refine ⟨?_, by simp, ?_, fun ws t evs => runHooks_deferred_of_async ws t evs⟩
      · obtain ⟨tail, ht, hs⟩ := runHooks_events_extend (fun m => fromWrapper handlers m)
          (fun m t => fromWrapper_ev_bound handlers m t)
          (reversedArray (computeDiff cur ((routerMatch pops routes dflt nf path).getD [])).1)
          {} false []
        simpa [runTransitionFromHooks, ht] using hs
      · intro hfq _
        exfalso
        have hq := runHooks_fromWrapper_quiet handlers
          (reversedArray (computeDiff cur ((routerMatch pops routes dflt nf path).getD [])).1)
          (fun m hm => hfq m (by simpa [reversedArray] using hm)) {} false [] rfl
        simp only [runTransitionFromHooks] at hcond
        simp [hq.2.1, hq.2.2] at hcond
    · split at h
      · rename_i hcond1 hcond2
        simp only [Option.some.injEq] at h
        subst h
        refine ⟨?_, ?_, ?_, fun ws t evs => runHooks_deferred_of_async ws t evs⟩
        · obtain ⟨tail, ht, hs⟩ := runHooks_events_extend (fun m => fromWrapper handlers m)
            (fun m t => fromWrapper_ev_bound handlers m t)
            (reversedArray (computeDiff cur ((routerMatch pops routes dflt nf path).getD [])).1)
            {} false []
          simpa [runTransitionFromHooks, ht] using hs
        · obtain ⟨tail, ht, hs⟩ := runHooks_events_extend
            (fun m => toWrapper handlers ((pops.extractQuery path).getD []) m)
            (fun m t => toWrapper_ev_bound handlers ((pops.extractQuery path).getD []) m t)
            (computeDiff cur ((routerMatch pops routes dflt nf path).getD [])).2
            (runTransitionFromHooks handlers
              (computeDiff cur ((routerMatch pops routes dflt nf path).getD [])).1 {}).t
            false []
          simpa [runTransitionToHooks, ht] using hs
        · intro hfq htq
          exfalso
          have hqf := runHooks_fromWrapper_quiet handlers
            (reversedArray (computeDiff cur ((routerMatch pops routes dflt nf path).getD [])).1)
            (fun m hm => hfq m (by simpa [reversedArray] using hm)) {} false [] rfl
          have hqt := runHooks_toWrapper_quiet handlers ((pops.extractQuery path).getD [])
            (computeDiff cur ((routerMatch pops routes dflt nf path).getD [])).2
            htq
            (runTransitionFromHooks handlers
              (computeDiff cur ((routerMatch pops routes dflt nf path).getD [])).1 {}).t
            false []
            (by simpa [runTransitionFromHooks] using hqf.2.1)
          simp only [runTransitionToHooks] at hcond2
          simp [hqt.2.1, hqt.2.2] at hcond2
      · rename_i hcond1 hcond2
        simp only [Option.some.injEq] at h
        subst h
        refine ⟨?_, ?_, ?_, fun ws t evs => runHooks_deferred_of_async ws t evs⟩
        · obtain ⟨tail, ht, hs⟩ := runHooks_events_extend (fun m => fromWrapper handlers m)
            (fun m t => fromWrapper_ev_bound handlers m t)
            (reversedArray (computeDiff cur ((routerMatch pops routes dflt nf path).getD [])).1)
            {} false []
          simpa [runTransitionFromHooks, ht] using hs
        · obtain ⟨tail, ht, hs⟩ := runHooks_events_extend
            (fun m => toWrapper handlers ((pops.extractQuery path).getD []) m)
            (fun m t => toWrapper_ev_bound handlers ((pops.extractQuery path).getD []) m t)
            (computeDiff cur ((routerMatch pops routes dflt nf path).getD [])).2
            (runTransitionFromHooks handlers
              (computeDiff cur ((routerMatch pops routes dflt nf path).getD [])).1 {}).t
            false []
          simpa [runTransitionToHooks, ht] using hs
        · intro hfq htq
          have hqf := runHooks_fromWrapper_quiet handlers
            (reversedArray (computeDiff cur ((routerMatch pops routes dflt nf path).getD [])).1)
            (fun m hm => hfq m (by simpa [reversedArray] using hm)) {} false [] rfl
          have hqt := runHooks_toWrapper_quiet handlers ((pops.extractQuery path).getD [])
            (computeDiff cur ((routerMatch pops routes dflt nf path).getD [])).2
            htq
            (runTransitionFromHooks handlers
              (computeDiff cur ((routerMatch pops routes dflt nf path).getD [])).1 {}).t
            false []
            (by simpa [runTransitionFromHooks] using hqf.2.1)
          constructor
          · simpa [runTransitionFromHooks] using hqf.1
          · simpa [runTransitionToHooks] using hqt.1

/-- **C6.** Aborting halts propagation: once the transition is aborted, no
later wrapper in either phase invokes its handler hook (the trace gains no
event and no error arises); and a dispatch whose transition ends aborted
reports the transition's `abortReason` to the callback, stores no pending
Resolved State, and leaves the committed state untouched; moreover an
abort during the leaving phase prevents every entering hook (the
entering-phase trace is empty). -/
theorem abort_halts_propagation :
    (∀ (handlers : Handlers) (query : Params) (ms : List Match) (t : Transition)
        (a : Bool) (evs : List Nat), t.isAborted = true →
        (runHooks (ms.map (fun m => fromWrapper handlers m)) t a evs).events = evs ∧
        (runHooks (ms.map (fun m => toWrapper handlers query m)) t a evs).events = evs)
  ∧ (∀ (pops : PathOps) (handlers : Handlers) (routes : List Route) (dflt nf : Option Route)
        (r : Router) (path : String) (o : DispatchOutcome),
        dispatch pops handlers routes dflt nf r path = some o →
        o.t.isAborted = true →
        o.cbAbortReason = o.t.abortReason ∧ o.router.state = r.state ∧
          o.router.nextState = r.nextState)
  ∧ (∀ (pops : PathOps) (handlers : Handlers) (routes : List Route) (dflt nf : Option Route)
        (r : Router) (path : String) (o : DispatchOutcome),
        dispatch pops handlers routes dflt nf r path = some o →
        (runTransitionFromHooks handlers (dispatchLeaving pops routes dflt nf r path)
            {}).t.isAborted = true →
        o.toEvents = []) := by
  refine ⟨?_, ?_, ?_⟩
  · intro handlers query ms t a evs hab
    exact ⟨(runHooks_fromWrapper_aborted handlers ms t a evs hab).1,
           (runHooks_toWrapper_aborted handlers query ms t a evs hab).1⟩
  · intro pops handlers routes dflt nf r path o h habo
    cases hst : stateMatches r.state with
    | none => rw [dispatch, hst] at h; cases h
    | some cur =>
      simp only [dispatch, hst] at h
      split at h
      · simp only [Option.some.injEq] at h
        subst h
        exact ⟨rfl, rfl, rfl⟩
      · split at h
        · simp only [Option.some.injEq] at h
          subst h
          exact ⟨rfl, rfl, rfl⟩
        · rename_i hcond1 hcond2
          simp only [Option.some.injEq] at h
          subst h
          simp only at habo
          simp [habo] at hcond2
  · intro pops handlers routes dflt nf r path o h habf
    cases hst : stateMatches r.state with
    | none => rw [dispatch, hst] at h; cases h
    | some cur =>
      have hL : dispatchLeaving pops routes dflt nf r path =
          (computeDiff cur ((routerMatch pops routes dflt nf path).getD [])).1 := by
        simp [dispatchLeaving, hst]
      rw [hL] at habf
      simp only [dispatch, hst] at h
      split at h
      · simp only [Option.some.injEq] at h
        subst h
        rfl
      · rename_i hcond1
        exact absurd (by simp [habf]) hcond1

/-- Counterexample for **C7**: a dispatch in which no hook attaches an
asynchronous wait and none throws (here: no hooks at all) invokes its
callback inline — `deferredQ = false` — not on a later scheduling turn. -/
theorem dispatch_sync_inline_cex :
    (dispatch exPops9 noHooks [] none none exRouter0 "/x").map
      (fun o => (o.deferredQ, o.cbError, o.cbAbortReason)) = some (false, none, none) := by
  rw [dispatch_noHooks exPops9 [] none none exRouter0 "/x" [] rfl]
  simp [routerMatch, exPops9, findMatches, computeDiff]

/-- **C7 (amended).** A dispatch in which no hook attaches an asynchronous
wait and none returns a promise invokes its callback inline, synchronously
within the call to dispatch (`deferredQ = false`); only a hook-supplied
promise defers the callback to a later scheduling turn. -/
theorem dispatch_sync_callback_inline
    (pops : PathOps) (handlers : Handlers) (routes : List Route) (dflt nf : Option Route)
    (r : Router) (path : String) (o : DispatchOutcome)
    (h : dispatch pops handlers routes dflt nf r path = some o)
    (hsync : ∀ n, (handlers n).syncB = true) :
    o.deferredQ = false := by
  cases hst : stateMatches r.state with
  | none => rw [dispatch, hst] at h; cases h
  | some cur =>
    simp only [dispatch, hst] at h
    have hf := runHooks_fromWrapper_sync handlers hsync
      (reversedArray (computeDiff cur ((routerMatch pops routes dflt nf path).getD [])).1)
      {} false [] rfl
    have ht := runHooks_toWrapper_sync handlers ((pops.extractQuery path).getD []) hsync
      (computeDiff cur ((routerMatch pops routes dflt nf path).getD [])).2
      (runTransitionFromHooks handlers
        (computeDiff cur ((routerMatch pops routes dflt nf path).getD [])).1 {}).t
      false []
      (by simpa [runTransitionFromHooks] using hf.2)
    split at h
    · simp only [Option.some.injEq] at h
      subst h
      simpa [runTransitionFromHooks] using hf.1
    · split at h
      · simp only [Option.some.injEq] at h
        subst h
        simp only
        rw [Bool.or_eq_false_iff]
        exact ⟨by simpa [runTransitionFromHooks] using hf.1,
               by simpa [runTransitionToHooks] using ht.1⟩
      · simp only [Option.some.injEq] at h
        subst h
        simp only
        rw [Bool.or_eq_false_iff]
        exact ⟨by simpa [runTransitionFromHooks] using hf.1,
               by simpa [runTransitionToHooks] using ht.1⟩

/-- **C8 (amended).** Promise consumption is per-phase, not per-hook: in
the entering phase every non-throwing wrapper hands back a transition with
`promise` cleared; in the leaving phase the wrapper consumes and clears
`promise` only when the handler hook is skipped (transition aborted or
hook absent) — when a leaving hook runs and attaches a wait, the wrapper
returns the hook's own return value and leaves the attached promise on
the transition for the next wrapper to consume. -/
theorem promise_consumption_per_phase :
    (∀ (handlers : Handlers) (query : Params) (m : Match) (t t' : Transition)
        (ret ev : Option Nat),
        toWrapper handlers query m t = .ok t' ret ev → t'.promise = none)
  ∧ (∀ (handlers : Handlers) (m : Match) (t : Transition),
        t.isAborted = true ∨ (handlers m.route.rid).willTransitionFrom = none →
        fromWrapper handlers m t = .ok { t with promise := none } t.promise none)
  ∧ (∀ (handlers : Handlers) (m : Match) (t : Transition) (b : HookBeh) (tok : Nat),
        t.isAborted = false → (handlers m.route.rid).willTransitionFrom = some b →
        b.eff = .wait tok →
        fromWrapper handlers m t =
          .ok { t with promise := some tok } b.ret (some m.route.rid)) := by
  refine ⟨?_, ?_, ?_⟩
  · intro handlers query m t t' ret ev h
    rcases t with ⟨ab, r, p⟩
    cases hb : (handlers m.route.rid).willTransitionTo with
    | none =>
      cases ab <;> simp [toWrapper, hb] at h <;> simp [← h.1]
    | some b =>
      cases ab
      · cases hr : runHookBeh b ⟨false, r, p⟩ with
        | ok t2 ret2 =>
          simp [toWrapper, hb, hr] at h
          simp [← h.1]
        | err t2 e =>
          simp [toWrapper, hb, hr] at h
      · simp [toWrapper, hb] at h
        simp [← h.1]
  · intro handlers m t hor
    rcases hor with hab | hb
    · rcases t with ⟨ab, r, p⟩
      obtain rfl : ab = true := hab
      simp [fromWrapper]
    · cases hab : t.isAborted <;> simp [fromWrapper, hb, hab]
  · intro handlers m t b tok hab hb heff
    rcases t with ⟨ab, r, p⟩
    obtain rfl : ab = false := hab
    simp [fromWrapper, hb, runHookBeh, heff]

/-- Witness for C5 at a concrete all-no-op dispatch: the entering trace is
exactly the entering set's route ids in chain order, after the (empty)
leaving trace. -/
theorem hook_invocation_order_witness :
    exO5.fromEvents =
      (reversedArray (dispatchLeaving exPops9 [exApp] none none exRouter0 "/posts/123")).map
        (fun m => m.route.rid) ∧
    exO5.toEvents =
      (dispatchEntering exPops9 [exApp] none none exRouter0 "/posts/123").map
        (fun m => m.route.rid) :=
  (hook_invocation_order exPops9 allNopHooks [exApp] none none exRouter0 "/posts/123"
      exO5 exDispatch5_eval).2.2.1
    (fun _ _ => ⟨⟨HookEff.nop, none⟩, rfl, rfl⟩)
    (fun _ _ => ⟨⟨HookEff.nop, none⟩, rfl, rfl⟩)

/-- Witness for C6 at a concrete aborted dispatch: the callback received
the abort reason and the router's committed and pending slots are
unchanged. -/
theorem abort_halts_propagation_witness :
    exO6.cbAbortReason = exO6.t.abortReason ∧ exO6.router.state = exRouter1.state ∧
      exO6.router.nextState = exRouter1.nextState :=
  abort_halts_propagation.2.1 exPops exAbortHooks [exR] none none exRouter1 "/t2/3/2"
    exO6 exDispatch6_eval rfl

/-- Witness for C7's amended theorem: a hookless dispatch runs its
callback inline. -/
theorem dispatch_sync_callback_inline_witness :
    exOutcome0.deferredQ = false :=
  dispatch_sync_callback_inline exPops9 noHooks [] none none exRouter0 "/x" exOutcome0
    exDispatch0_eval (fun _ => rfl)

/-- Counterexample for **C8**: a leaving hook that attaches wait token 7
leaves `transition.promise = some 7` after its wrapper returns — the
orchestrator did NOT consume and clear it before the next hook — and in a
two-deep leaving phase the NEXT (hookless) wrapper consumes the stale
promise, making the phase asynchronous on the wrong hook's account. -/
theorem fromHook_promise_not_cleared_cex :
    fromWrapper exWaitFromHooks ⟨exPost, []⟩ {} = .ok ⟨false, none, some 7⟩ none (some 11)
  ∧ runTransitionFromHooks exWaitFromHooks [⟨exApp, []⟩, ⟨exPost, []⟩] {} =
      ⟨⟨false, none, none⟩, true, none, [11]⟩
  ∧ (some 7 : Option Nat) ≠ none :=
  ⟨by decide, by decide, by decide⟩

/-- Witness for C8's amended theorem: a running leaving hook that waits
leaves its promise on the transition. -/
theorem promise_consumption_per_phase_witness :
    fromWrapper exWaitFromHooks9 ⟨exApp, []⟩ {} = .ok ⟨false, none, some 9⟩ none (some 10) :=
  promise_consumption_per_phase.2.2 exWaitFromHooks9 ⟨exApp, []⟩ {} ⟨HookEff.wait 9, none⟩ 9
    rfl rfl rfl

end ReactRouter
